import Mathlib

/-!
Verification development for the `event-tracking` repository
(`eventtracking/backends/awslambda.py` and
`eventtracking/backends/aws_lambda.py`).

The repository contains two revisions of a single class,
`AwsLambdaBackend`, whose method `send(event)` validates an event
mapping, enriches it with a user record looked up from an external user
store, serializes it to JSON with a datetime-aware encoder
(`DateTimeJSONEncoder`), and forwards the payload to an external
async-invoke transport (`client.invoke`).

Shallow embedding notes:
* Python dict values are modelled by the inductive type `Value`;
  dicts are association lists in insertion order (Python 3.7+ dicts
  preserve insertion order, and `json.dumps` serializes in that order).
  In-place mutation of nested dicts is modelled by functional update of
  the enclosing event value; aliasing between distinct nested dicts
  (the same dict object stored under two keys) is not modelled.
* The external user store (`User.objects.get(pk=...)`) is modelled as a
  total function `Value → Option UserRec`; `Option.none` is the
  `User.DoesNotExist` outcome.  ORM-level type errors for exotic
  (non-scalar) primary keys are not modelled.
* The external transport (`self.client.invoke`) is modelled by a
  parameter `tex : Option String`: `Option.none` means the call
  returns normally, `some e` means the call raises exception `e`.
  The awslambda.py revision does not guard this call, so a raised `e`
  propagates out of `send`.
* Logging calls are recorded as structured `LogEntry` values carrying
  the interpolated arguments; the exact Python format strings are
  quoted at each constructor.  `log.warning(msg, extra_positional_arg)`
  calls (which have no percent placeholder in `msg`) are recorded as
  the plain message.
* Python truthiness (`if not x`) is modelled by `truthy`; note that
  `0`, `""`, `\x7b\x7d` (empty dict) and `None` are all falsy.
* Python `datetime` is modelled by `PyDatetime`: wall-clock fields plus
  an optional UTC offset in minutes (`Option.none` = naive).  Python
  requires `|utcoffset| < 24` hours, so a one-minute-resolution offset
  satisfies `-1440 < off < 1440`.  The calendar arithmetic
  (`toOrdinal`, matching CPython `datetime._ymd2ord`) is proleptic
  Gregorian over all integer years; CPython restricts years to
  1..9999 and raises OverflowError outside, which is not modelled.
  Python `//` and `%` on ints are floor division and floor modulus;
  for the positive divisors used here these agree with Lean `Int`
  division and modulus.
-/

/-- Calendar date, as in Python `datetime.date`: year, month (1..12),
day (1..days-in-month). -/
structure PlainDate where
  year : Int
  month : Nat
  day : Nat

/-- Python `datetime.datetime`: wall-clock fields plus an optional UTC
offset in minutes (`Option.none` models a naive datetime, `some 0`
models pytz UTC). -/
structure PyDatetime where
  pdate : PlainDate
  hour : Nat
  minute : Nat
  second : Nat
  microsecond : Nat
  tzOffsetMin : Option Int

/-- Python value universe for event payloads: strings, ints, dicts
(association lists in insertion order), datetime and date objects, and
None.  These cover every value the claims exercise and everything the
JSON serializer of the repository can encode. -/
inductive Value where
  | str : String → Value
  | int : Int → Value
  | dict : List (String × Value) → Value
  | dt : PyDatetime → Value
  | date : PlainDate → Value
  | pynone : Value

/-- Record returned by the external user store for a resolvable id,
exposing the `email` and `username` attributes the code reads. -/
structure UserRec where
  email : String
  username : String

/-- Python truthiness of a `Value`, as used by `if not x` in the code:
empty string, zero, empty dict and None are falsy. -/
def truthy : Value → Bool
  | Value.str s => !(s == "")
  | Value.int n => !(n == 0)
  | Value.dict l => !l.isEmpty
  | Value.dt _ => true
  | Value.date _ => true
  | Value.pynone => false

/-- Truthiness of a `dict.get` result (Python `get` returns None when
the key is missing, and None is falsy). -/
def truthyO : Option Value → Bool
  | some v => truthy v
  | Option.none => false

/-- Python `dict.get(key)` on an insertion-ordered dict. -/
def assocGet : List (String × Value) → String → Option Value
  | [], _ => Option.none
  | (k, v) :: rest, key => if k = key then some v else assocGet rest key

/-- Python `d[key] = v` on an insertion-ordered dict: an existing key
keeps its position, a new key is appended at the end. -/
def assocSet : List (String × Value) → String → Value → List (String × Value)
  | [], key, v => [(key, v)]
  | (k, w) :: rest, key, v =>
      if k = key then (key, v) :: rest else (k, w) :: assocSet rest key v

mutual
/-- Python `==` on modelled values (structural equality; dict equality
in Python is order-insensitive, but the code only compares scalar
user ids, for which structural equality coincides). -/
def valueBeq : Value → Value → Bool
  | Value.str a, Value.str b => a == b
  | Value.int a, Value.int b => a == b
  | Value.dict a, Value.dict b => fieldsBeq a b
  | Value.dt a, Value.dt b =>
      a.pdate.year == b.pdate.year && a.pdate.month == b.pdate.month &&
      a.pdate.day == b.pdate.day && a.hour == b.hour && a.minute == b.minute &&
      a.second == b.second && a.microsecond == b.microsecond && a.tzOffsetMin == b.tzOffsetMin
  | Value.date a, Value.date b =>
      a.year == b.year && a.month == b.month && a.day == b.day
  | Value.pynone, Value.pynone => true
  | _, _ => false

/-- Pointwise equality of dict field lists. -/
def fieldsBeq : List (String × Value) → List (String × Value) → Bool
  | [], [] => true
  | (k1, v1) :: r1, (k2, v2) :: r2 => k1 == k2 && valueBeq v1 v2 && fieldsBeq r1 r2
  | _, _ => false
end

/-- CPython `datetime._is_leap(year)`:
`year % 4 == 0 and (year % 100 != 0 or year % 400 == 0)`. -/
def isLeap (y : Int) : Bool := y % 4 == 0 && (!(y % 100 == 0) || y % 400 == 0)

/-- CPython `datetime._days_in_month(year, month)` (month 1..12). -/
def daysInMonth (y : Int) (m : Nat) : Nat :=
  if m = 2 then (if isLeap y then 29 else 28)
  else if m = 4 ∨ m = 6 ∨ m = 9 ∨ m = 11 then 30
  else 31

/-- CPython `datetime._days_before_month(year, month)`: days in the
year preceding the first of the month (cumulative table plus a leap
day after February). -/
def daysBeforeMonth (y : Int) (m : Nat) : Nat :=
  (match m with
   | 1 => 0 | 2 => 31 | 3 => 59 | 4 => 90 | 5 => 120 | 6 => 151
   | 7 => 181 | 8 => 212 | 9 => 243 | 10 => 273 | 11 => 304 | _ => 334)
  + (if 2 < m ∧ isLeap y then 1 else 0)

/-- CPython `datetime._days_before_year(year)`: days before January 1
of the year, with Python floor division (equal to Lean `Int` division
for the positive divisors 4, 100, 400). -/
def daysBeforeYear (y : Int) : Int :=
  365 * (y - 1) + (y - 1) / 4 - (y - 1) / 100 + (y - 1) / 400

/-- CPython `datetime._ymd2ord` / `date.toordinal`: proleptic Gregorian
ordinal of a date (0001-01-01 is ordinal 1). -/
def toOrdinal (d : PlainDate) : Int :=
  daysBeforeYear d.year + daysBeforeMonth d.year d.month + d.day

/-- Successor date in the proleptic Gregorian calendar. -/
def nextDay (d : PlainDate) : PlainDate :=
  if d.day < daysInMonth d.year d.month then ⟨d.year, d.month, d.day + 1⟩
  else if d.month < 12 then ⟨d.year, d.month + 1, 1⟩
  else ⟨d.year + 1, 1, 1⟩

/-- Predecessor date in the proleptic Gregorian calendar. -/
def prevDay (d : PlainDate) : PlainDate :=
  if 1 < d.day then ⟨d.year, d.month, d.day - 1⟩
  else if 1 < d.month then ⟨d.year, d.month - 1, daysInMonth d.year (d.month - 1)⟩
  else ⟨d.year - 1, 12, 31⟩

/-- Validity of a calendar date. -/
def ValidDate (d : PlainDate) : Prop :=
  1 ≤ d.month ∧ d.month ≤ 12 ∧ 1 ≤ d.day ∧ d.day ≤ daysInMonth d.year d.month

/-- Validity of a datetime: field ranges as enforced by the Python
datetime constructor, and the Python bound `|utcoffset| < 24h` on the
offset of an aware datetime. -/
def ValidDT (d : PyDatetime) : Prop :=
  ValidDate d.pdate ∧ d.hour < 24 ∧ d.minute < 60 ∧ d.second < 60 ∧
  d.microsecond < 1000000 ∧
  (∀ off, d.tzOffsetMin = some off → -1440 < off ∧ off < 1440)

/-- Python `datetime.astimezone(pytz.UTC)` on an aware datetime with
UTC offset `off` minutes: the wall clock is shifted by `-off` minutes
(crossing at most one midnight, since `|off| < 1440`), and the result
carries offset `+00:00`.  Seconds and microseconds are unchanged
because offsets are whole minutes. -/
def astimezoneUTC (d : PyDatetime) (off : Int) : PyDatetime :=
  let total : Int := d.hour * 60 + d.minute - off
  if total < 0 then
    ⟨prevDay d.pdate, ((total + 1440) / 60).toNat, ((total + 1440) % 60).toNat,
     d.second, d.microsecond, some 0⟩
  else if 1440 ≤ total then
    ⟨nextDay d.pdate, ((total - 1440) / 60).toNat, ((total - 1440) % 60).toNat,
     d.second, d.microsecond, some 0⟩
  else
    ⟨d.pdate, (total / 60).toNat, (total % 60).toNat,
     d.second, d.microsecond, some 0⟩

/-- Instant of an aware (or UTC-interpreted) datetime in minutes since
the proleptic ordinal epoch: wall-clock minutes minus the UTC offset.
Seconds and microseconds are tracked separately since minute-resolution
offsets never change them. -/
def instantMin (d : PyDatetime) : Int :=
  toOrdinal d.pdate * 1440 + d.hour * 60 + d.minute - (d.tzOffsetMin.getD 0)

/-- Left-pad the decimal representation of a natural number with zeros
to the given width (Python %02d / %04d / %06d). -/
def padNat (width n : Nat) : String :=
  let s := toString n
  if s.length < width then String.mk (List.replicate (width - s.length) '0') ++ s
  else s

/-- Year component of `isoformat` (%04d; a sign for the proleptic
negative years that Python itself cannot represent). -/
def padYear (y : Int) : String :=
  if y < 0 then "-" ++ padNat 4 y.natAbs else padNat 4 y.natAbs

/-- Python `date.isoformat()`: YYYY-MM-DD. -/
def isoDate (d : PlainDate) : String :=
  padYear d.year ++ "-" ++ padNat 2 d.month ++ "-" ++ padNat 2 d.day

/-- UTC-offset suffix of `datetime.isoformat()` (+HH:MM or -HH:MM). -/
def offsetSuffix (off : Int) : String :=
  (if off < 0 then "-" else "+") ++ padNat 2 (off.natAbs / 60) ++ ":" ++ padNat 2 (off.natAbs % 60)

/-- Python `datetime.isoformat()`: date, "T", HH:MM:SS, microseconds
only when nonzero, and the UTC-offset suffix when the datetime is
aware. -/
def isoDT (d : PyDatetime) : String :=
  isoDate d.pdate ++ "T" ++ padNat 2 d.hour ++ ":" ++ padNat 2 d.minute ++ ":" ++
  padNat 2 d.second ++
  (if d.microsecond = 0 then "" else "." ++ padNat 6 d.microsecond) ++
  (match d.tzOffsetMin with
   | Option.none => ""
   | some off => offsetSuffix off)

/-- Embedding of `DateTimeJSONEncoder.default` (awslambda.py lines
160-178, identically aws_lambda.py lines 80-98): a naive datetime is
localized to UTC (`UTC.localize`, wall clock unchanged) and a
timezone-aware one is converted (`astimezone(UTC)`); both are then
rendered with `isoformat()`.  A plain date is rendered with
`isoformat()`.  Any other value falls through to
`json.JSONEncoder.default`, which raises TypeError, modelled as
`Option.none`; on the `Value` universe this branch is unreachable
because every other constructor is JSON-encodable directly. -/
def encoderDefault : Value → Option String
  | Value.dt d =>
      some (match d.tzOffsetMin with
            | Option.none => isoDT { d with tzOffsetMin := some 0 }
            | some off => isoDT (astimezoneUTC d off))
  | Value.date d => some (isoDate d)
  | _ => Option.none

/-- Hexadecimal digit (lower case), for JSON \uXXXX escapes. -/
def hexDigit (n : Nat) : Char :=
  if n < 10 then Char.ofNat (48 + n) else Char.ofNat (87 + n)

/-- Four-digit lower-case hex of a code unit. -/
def hex4 (n : Nat) : String :=
  String.mk [hexDigit (n / 4096 % 16), hexDigit (n / 256 % 16),
             hexDigit (n / 16 % 16), hexDigit (n % 16)]

/-- Escaping of one character under `json.dumps` defaults
(ensure_ascii=True): the two JSON metacharacters and the named control
escapes, \u00XX for other control characters, the character itself for
printable ASCII, and \uXXXX (with a surrogate pair beyond the BMP) for
non-ASCII. -/
def jsonEscapeChar (c : Char) : String :=
  if c = '"' then "\\\""
  else if c = '\\' then "\\\\"
  else if c = '\n' then "\\n"
  else if c = '\t' then "\\t"
  else if c = '\r' then "\\r"
  else if c.toNat = 8 then "\\b"
  else if c.toNat = 12 then "\\f"
  else if c.toNat < 32 then "\\u" ++ hex4 c.toNat
  else if c.toNat < 127 then String.mk [c]
  else if c.toNat < 65536 then "\\u" ++ hex4 c.toNat
  else
    let v := c.toNat - 65536
    "\\u" ++ hex4 (55296 + v / 1024) ++ "\\u" ++ hex4 (56320 + v % 1024)

/-- JSON string literal for `s` under `json.dumps` defaults. -/
def jsonString (s : String) : String :=
  "\"" ++ String.join (s.data.map jsonEscapeChar) ++ "\""

mutual
/-- Embedding of `json.dumps(event, cls=DateTimeJSONEncoder)` with the
default separators (", " and ": "), serializing dicts in insertion
order.  Datetime and date values are replaced by the string produced by
`DateTimeJSONEncoder.default` (this is exactly the encoder hook: the
hook result is a string, which json then serializes as a JSON
string). -/
def dumpVal : Value → String
  | Value.str s => jsonString s
  | Value.int n => toString n
  | Value.pynone => "null"
  | Value.dt d => jsonString ((encoderDefault (Value.dt d)).getD "")
  | Value.date d => jsonString (isoDate d)
  | Value.dict l => "\x7b" ++ dumpFields l ++ "\x7d"

/-- Serialization of the field list of a dict, comma-separated. -/
def dumpFields : List (String × Value) → String
  | [] => ""
  | [(k, v)] => jsonString k ++ ": " ++ dumpVal v
  | (k, v) :: r => jsonString k ++ ": " ++ dumpVal v ++ ", " ++ dumpFields r
end

/-- Logging calls performed by `send`, recorded as the call site plus
the interpolated arguments.  The Python messages are, in constructor
order:
* warnNoEvent (line 61): "AWSLambdaService: No event argument was
  provided. Not sending to AWSLambda." at warning level;
* warnNoName (line 66): "AWSLambdaService: Event was missing name
  property. Not sending to AWSLambda." at warning level (the event is
  passed as an extra positional argument);
* infoCallFor (line 69): "AWSLambdaService: aws lambda call for event
  name \x7b\x7d " formatted with the event name, at info level;
* warnNoContext (line 75): "AWSLambdaService: Event was missing
  context. Not sending to AWSLambda." at warning level;
* warnNoUserId (line 84): "AWSLambdaService: event \x7b\x7d no user_id
  in context or event body. Not sending to AWSLambda." formatted with
  the event name, at warning level;
* errUserNotFound (line 90): "Cannot find a user with user_id: \x7b\x7d
  . Not sending to AWSLambda." formatted with the user id, at error
  level;
* warnNoData (line 104): "AWSLambdaService: event \x7b\x7d no data
  object in event body. Not sending to AWSLambda." formatted with the
  event name, at warning level;
* errDataUserNotFound (line 124): "Cannot find a user in event.data
  with user_id: \x7b\x7d . Not sending to AWSLambda." formatted with
  the data user id, at error level;
* excEncodeFail (line 144): "Couldn't encode event_str. event_str="
  at exception (error) level;
* infoSent (line 154): "AWSLambdaService: aws lambda send event:
  \x7b\x7d " formatted with the event name, at info level. -/
inductive LogEntry where
  | warnNoEvent : LogEntry
  | warnNoName : LogEntry
  | infoCallFor : Value → LogEntry
  | warnNoContext : LogEntry
  | warnNoUserId : Value → LogEntry
  | errUserNotFound : Value → LogEntry
  | warnNoData : Value → LogEntry
  | errDataUserNotFound : Value → LogEntry
  | excEncodeFail : LogEntry
  | infoSent : Value → LogEntry

/-- Severity of a recorded logging call (log.error is error level;
log.exception also logs at error level). -/
def LogEntry.isError : LogEntry → Bool
  | LogEntry.errUserNotFound _ => true
  | LogEntry.errDataUserNotFound _ => true
  | LogEntry.excEncodeFail => true
  | _ => false

/-- Termination mode of a call to `send`: a normal return (the method
always returns None) or an uncaught exception identified by its Python
class name. -/
inductive Outcome where
  | ret : Outcome
  | exc : String → Outcome

/-- Observable effects of one call to `AwsLambdaBackend.send`
(awslambda.py): the primary keys passed to `User.objects.get` in
order, the logging calls in order, the payload strings passed to
`self.client.invoke` (the UTF-8 bytes of each payload string), the
termination mode, and the final state of the mutable `event` argument
(the code mutates it in place via `context[...] = ...` and
`data[...] = ...`). -/
structure Trace where
  lookups : List Value
  logs : List LogEntry
  invocations : List String
  outcome : Outcome
  finalEvent : Value

/-- Stage of `send` at the transport call (awslambda.py lines 127-154):
`json.dumps` the fully enriched event, encode it to UTF-8 (guarded by
a bare try/except, but encoding a Python 3 str to UTF-8 cannot fail
for serializer output), then call `self.client.invoke` unguarded: if
the transport raises `e`, `send` propagates `e` and the final
`log.info` on line 154 is skipped. -/
def sendInvoke (tex : Option String) (lks : List Value) (lgs : List LogEntry)
    (nm : Value) (f2 : List (String × Value)) : Trace :=
  let payload := dumpVal (Value.dict f2)
  match tex with
  | Option.none => ⟨lks, lgs ++ [LogEntry.infoSent nm], [payload], Outcome.ret, Value.dict f2⟩
  | some e => ⟨lks, lgs, [payload], Outcome.exc e, Value.dict f2⟩

/-- Data user id selected on awslambda.py lines 110-112:
`data.get("user_id")` when truthy, else the context user id. -/
def dataUserId (dl : List (String × Value)) (u : Value) : Value :=
  match assocGet dl "user_id" with
  | some v => if truthy v then v else u
  | Option.none => u

/-- Stage of `send` from awslambda.py line 102 (after
`context["email"]` has been set): fetch `data` from the event; a
missing or falsy `data` drops the event with a warning; otherwise set
`data["email"]` and `data["username"]` from the context user when the
data user id coincides, or from a separately resolved user, dropping
the event with an error when that resolution fails; then invoke the
transport.  A truthy non-dict `data` would make `data.get` raise
AttributeError. -/
def sendData (store : Value → Option UserRec) (tex : Option String) (u : Value)
    (user : UserRec) (nm : Value) (f1 : List (String × Value)) : Trace :=
  match assocGet f1 "data" with
  | some dv =>
    if truthy dv = false then
      ⟨[u], [LogEntry.infoCallFor nm, LogEntry.warnNoData nm], [], Outcome.ret, Value.dict f1⟩
    else
      match dv with
      | Value.dict dl =>
        let duid := dataUserId dl u
        if valueBeq duid u then
          let dl2 := assocSet (assocSet dl "email" (Value.str user.email))
                       "username" (Value.str user.username)
          sendInvoke tex [u] [LogEntry.infoCallFor nm] nm (assocSet f1 "data" (Value.dict dl2))
        else
          match store duid with
          | some du =>
            let dl2 := assocSet (assocSet dl "email" (Value.str du.email))
                         "username" (Value.str du.username)
            sendInvoke tex [u, duid] [LogEntry.infoCallFor nm] nm
              (assocSet f1 "data" (Value.dict dl2))
          | Option.none =>
            ⟨[u, duid], [LogEntry.infoCallFor nm, LogEntry.errDataUserNotFound duid],
             [], Outcome.ret, Value.dict f1⟩
      | _ => ⟨[u], [LogEntry.infoCallFor nm], [], Outcome.exc "AttributeError", Value.dict f1⟩
  | Option.none =>
    ⟨[u], [LogEntry.infoCallFor nm, LogEntry.warnNoData nm], [], Outcome.ret, Value.dict f1⟩

/-- Stage of `send` at awslambda.py lines 87-101: resolve the user id
against the user store; on `User.DoesNotExist` log an error and drop
the event; otherwise set `context["email"]` in place (which updates
the event, since `context` is the dict stored under "context") and
continue with the data stage. -/
def sendUser (store : Value → Option UserRec) (tex : Option String)
    (f c : List (String × Value)) (nm u : Value) : Trace :=
  match store u with
  | Option.none =>
    ⟨[u], [LogEntry.infoCallFor nm, LogEntry.errUserNotFound u], [], Outcome.ret, Value.dict f⟩
  | some user =>
    let c1 := assocSet c "email" (Value.str user.email)
    sendData store tex u user nm (assocSet f "context" (Value.dict c1))

/-- Fallback of awslambda.py lines 81-85: when `context.get("user_id")`
is falsy, try the top-level `event.get("user_id")`; when that is falsy
too, log a warning and return without any lookup. -/
def sendUserIdFallback (store : Value → Option UserRec) (tex : Option String)
    (f c : List (String × Value)) (nm : Value) : Trace :=
  match assocGet f "user_id" with
  | some v =>
    if truthy v then sendUser store tex f c nm v
    else ⟨[], [LogEntry.infoCallFor nm, LogEntry.warnNoUserId nm], [], Outcome.ret, Value.dict f⟩
  | Option.none =>
    ⟨[], [LogEntry.infoCallFor nm, LogEntry.warnNoUserId nm], [], Outcome.ret, Value.dict f⟩

/-- Stage of `send` at awslambda.py lines 78-85: extract the user id
from the context, falling back to the event body. -/
def sendCtx (store : Value → Option UserRec) (tex : Option String)
    (f c : List (String × Value)) (nm : Value) : Trace :=
  match assocGet c "user_id" with
  | some v =>
    if truthy v then sendUser store tex f c nm v
    else sendUserIdFallback store tex f c nm
  | Option.none => sendUserIdFallback store tex f c nm

/-- Embedding of `AwsLambdaBackend.send` of awslambda.py (lines
50-154).  `store` models `User.objects.get(pk=...)` (`Option.none` is
`User.DoesNotExist`), `tex` models the outcome of the unguarded
`self.client.invoke` call (`some e` = the transport raises `e`), and
`event` is the argument.  Falsy events are rejected up front; a truthy
non-dict event (or a truthy non-dict `context`) would make `.get`
raise AttributeError. -/
def send (store : Value → Option UserRec) (tex : Option String) (event : Value) : Trace :=
  if truthy event = false then
    ⟨[], [LogEntry.warnNoEvent], [], Outcome.ret, event⟩
  else
    match event with
    | Value.dict f =>
      match assocGet f "name" with
      | some nm =>
        if truthy nm = false then
          ⟨[], [LogEntry.warnNoName], [], Outcome.ret, Value.dict f⟩
        else
          match assocGet f "context" with
          | some cv =>
            if truthy cv = false then
              ⟨[], [LogEntry.infoCallFor nm, LogEntry.warnNoContext], [], Outcome.ret, Value.dict f⟩
            else
              match cv with
              | Value.dict c => sendCtx store tex f c nm
              | _ => ⟨[], [LogEntry.infoCallFor nm], [], Outcome.exc "AttributeError", Value.dict f⟩
          | Option.none =>
            ⟨[], [LogEntry.infoCallFor nm, LogEntry.warnNoContext], [], Outcome.ret, Value.dict f⟩
      | Option.none => ⟨[], [LogEntry.warnNoName], [], Outcome.ret, Value.dict f⟩
    | other => ⟨[], [], [], Outcome.exc "AttributeError", other⟩

/-- Names bound at module level in aws_lambda.py: the imports of lines
3-9, the module logger of line 11, `boto3` from the guarded import of
lines 13-18 (when importable), and the two classes. -/
def awsLambdaModuleGlobals : List String :=
  ["absolute_import", "datetime", "date", "logging", "json", "UTC", "os",
   "log", "boto3", "AwsLambdaBackend", "DateTimeJSONEncoder"]

/-- Local names bound inside `AwsLambdaBackend.send` of aws_lambda.py:
the two parameters and the two assigned variables. -/
def sendLegacyLocals : List String := ["self", "event", "event_str", "response"]

/-- Class attributes of `AwsLambdaBackend` in aws_lambda.py (lines
42-43).  Python never consults the class namespace when resolving a
bare name inside a method body: they are reachable only through
`self.` or the class name. -/
def awsLambdaClassAttrs : List String := ["lambda_arn", "client"]

/-- Resolution of a bare name referenced in the body of
`AwsLambdaBackend.send` of aws_lambda.py: locals, then module globals,
then builtins (none of which is named "client"); the class namespace
is not part of the chain. -/
def resolvesBareName (n : String) : Bool :=
  sendLegacyLocals.contains n || awsLambdaModuleGlobals.contains n

/-- Observable effects of one call to `AwsLambdaBackend.send` of
aws_lambda.py: the payloads passed to a transport `invoke` and the
termination mode.  This revision performs no user-store lookup, no
logging inside `send`, and never mutates the event. -/
structure TraceLegacy where
  invocations : List String
  outcome : Outcome

/-- Embedding of `AwsLambdaBackend.send` of aws_lambda.py (lines
54-74), under the assumption that `boto3` was importable (otherwise
the module itself fails to load: line 43 evaluates `boto3.client` at
class-definition time, so the class would not exist).  The method
checks `boto3 is None` (false for an imported module) and
`self.lambda_arn is None`, serializes the event, then evaluates the
bare name `client` on line 70; since that name resolves in no
enclosing scope, the reference raises NameError before any transport
call can happen. -/
def sendLegacy (lambdaArn : Option String) (event : Value) : TraceLegacy :=
  match lambdaArn with
  | Option.none => ⟨[], Outcome.ret⟩
  | some _ =>
    let eventStr := dumpVal event
    if resolvesBareName "client" then ⟨[eventStr], Outcome.ret⟩
    else ⟨[], Outcome.exc "NameError"⟩

/-- A dict from which a key was read successfully is nonempty. -/
theorem assocGet_ne_nil {l : List (String × Value)} {k : String} {v : Value}
    (h : assocGet l k = some v) : l ≠ [] := by
  intro hl
  subst hl
  simp [assocGet] at h

/-- A nonempty dict is truthy. -/
theorem truthy_dict {l : List (String × Value)} (h : l ≠ []) :
    truthy (Value.dict l) = true := by
  cases l with
  | nil => exact absurd rfl h
  | cons a r => rfl

/-- Reading back the key just written. -/
theorem assocGet_assocSet_self (l : List (String × Value)) (k : String) (v : Value) :
    assocGet (assocSet l k v) k = some v := by
  induction l with
  | nil => simp [assocGet, assocSet]
  | cons a r ih =>
    obtain ⟨k1, v1⟩ := a
    by_cases hk : k1 = k
    · subst hk
      simp [assocSet, assocGet]
    · simp [assocSet, assocGet, hk, ih]

/-- Writing one key leaves every other key unchanged. -/
theorem assocGet_assocSet_ne (l : List (String × Value)) {k k2 : String} (v : Value)
    (h : k ≠ k2) : assocGet (assocSet l k v) k2 = assocGet l k2 := by
  induction l with
  | nil => simp [assocGet, assocSet, h]
  | cons a r ih =>
    obtain ⟨k1, v1⟩ := a
    by_cases hk : k1 = k
    · subst hk
      simp [assocSet, assocGet, h]
    · by_cases hk2 : k1 = k2
      · subst hk2
        simp [assocSet, assocGet, hk]
      · simp [assocSet, assocGet, hk, hk2, ih]

/-- Rewriting a key with the value it already holds is the identity. -/
theorem assocSet_same {l : List (String × Value)} {k : String} {v : Value}
    (h : assocGet l k = some v) : assocSet l k v = l := by
  induction l with
  | nil => simp [assocGet] at h
  | cons a r ih =>
    obtain ⟨k1, v1⟩ := a
    by_cases hk : k1 = k
    · subst hk
      simp only [assocGet, if_true, eq_self_iff_true, Option.some.injEq] at h
      simp [assocSet, h]
    · simp only [assocGet, if_neg hk] at h
      simp [assocSet, hk, ih h]

/-- Writing never empties a dict. -/
theorem assocSet_ne_nil (l : List (String × Value)) (k : String) (v : Value) :
    assocSet l k v ≠ [] := by
  cases l with
  | nil => simp [assocSet]
  | cons a r =>
    obtain ⟨k1, v1⟩ := a
    by_cases hk : k1 = k <;> simp [assocSet, hk]

/-- Stepping a valid date forward one day advances the proleptic
Gregorian ordinal by exactly one. -/
theorem toOrdinal_nextDay (d : PlainDate) (h : ValidDate d) :
    toOrdinal (nextDay d) = toOrdinal d + 1 := by
  obtain ⟨y, m, dd⟩ := d
  obtain ⟨h1, h2, h3, h4⟩ := h
  have H1 : 1 ≤ m := h1
  have H2 : m ≤ 12 := h2
  have H3 : 1 ≤ dd := h3
  have H4 : dd ≤ daysInMonth y m := h4
  clear h1 h2 h3 h4
  simp only [nextDay]
  split
  · simp only [toOrdinal]
    push_cast
    omega
  · rename_i hlt
    have Hlt : ¬ dd < daysInMonth y m := hlt
    have hdd : dd = daysInMonth y m := by omega
    subst hdd
    split
    · rename_i hm
      have Hm : m < 12 := hm
      interval_cases m <;>
        by_cases hL : isLeap y <;>
          simp [toOrdinal, daysBeforeMonth, daysInMonth, hL] <;> omega
    · rename_i hm
      have Hm : ¬ m < 12 := hm
      have hm12 : m = 12 := by omega
      subst hm12
      simp only [toOrdinal, daysBeforeMonth, daysInMonth, daysBeforeYear, isLeap]
      by_cases h4' : y % 4 = 0 <;> by_cases h100 : y % 100 = 0 <;>
        by_cases h400 : y % 400 = 0 <;>
          simp [h4', h100, h400] <;> omega

/-- Stepping a valid date back one day decreases the proleptic
Gregorian ordinal by exactly one. -/
theorem toOrdinal_prevDay (d : PlainDate) (h : ValidDate d) :
    toOrdinal (prevDay d) = toOrdinal d - 1 := by
  obtain ⟨y, m, dd⟩ := d
  obtain ⟨h1, h2, h3, h4⟩ := h
  have H1 : 1 ≤ m := h1
  have H2 : m ≤ 12 := h2
  have H3 : 1 ≤ dd := h3
  have H4 : dd ≤ daysInMonth y m := h4
  clear h1 h2 h3 h4
  simp only [prevDay]
  split
  · rename_i hdd
    have Hdd : 1 < dd := hdd
    obtain ⟨e, rfl⟩ : ∃ e, dd = e + 2 := ⟨dd - 2, by omega⟩
    simp only [toOrdinal]
    push_cast
    omega
  · rename_i hdd
    have Hdd : ¬ 1 < dd := hdd
    have hdd1 : dd = 1 := by omega
    subst hdd1
    split
    · rename_i hm
      have Hm : 1 < m := hm
      interval_cases m <;>
        by_cases hL : isLeap y <;>
          simp [toOrdinal, daysBeforeMonth, daysInMonth, hL] <;> omega
    · rename_i hm
      have Hm : ¬ 1 < m := hm
      have hm1 : m = 1 := by omega
      subst hm1
      simp only [toOrdinal, daysBeforeMonth, daysInMonth, daysBeforeYear, isLeap]
      by_cases h4' : (y - 1) % 4 = 0 <;> by_cases h100 : (y - 1) % 100 = 0 <;>
        by_cases h400 : (y - 1) % 400 = 0 <;>
          simp [h4', h100, h400] <;> omega

/-- Conversion of a valid aware datetime to UTC preserves the instant
it denotes, stamps the result with offset zero, and leaves seconds and
microseconds unchanged. -/
theorem astimezoneUTC_spec (d : PyDatetime) (off : Int) (hv : ValidDT d)
    (htz : d.tzOffsetMin = some off) :
    (astimezoneUTC d off).tzOffsetMin = some 0 ∧
    instantMin (astimezoneUTC d off) = instantMin d ∧
    (astimezoneUTC d off).second = d.second ∧
    (astimezoneUTC d off).microsecond = d.microsecond := by
  obtain ⟨hdate, hh, hm, hs, hus, hoffb⟩ := hv
  obtain ⟨hlo, hhi⟩ := hoffb off htz
  simp only [astimezoneUTC]
  split
  · rename_i hneg
    refine ⟨rfl, ?_, rfl, rfl⟩
    simp only [instantMin, htz, Option.getD]
    have hord := toOrdinal_prevDay d.pdate hdate
    rw [hord]
    omega
  · split
    · rename_i hneg hbig
      refine ⟨rfl, ?_, rfl, rfl⟩
      simp only [instantMin, htz, Option.getD]
      have hord := toOrdinal_nextDay d.pdate hdate
      rw [hord]
      omega
    · refine ⟨rfl, ?_, rfl, rfl⟩
      simp only [instantMin, htz, Option.getD]
      omega

/-- Reaching the user-lookup stage: a truthy name, a truthy dict
context and a truthy context user id drive `send` to `sendUser`. -/
theorem send_reach_sendUser (store : Value → Option UserRec) (tex : Option String)
    (f c : List (String × Value)) (nm u : Value)
    (h1 : assocGet f "name" = some nm) (h2 : truthy nm = true)
    (h3 : assocGet f "context" = some (Value.dict c))
    (h5 : assocGet c "user_id" = some u) (h6 : truthy u = true) :
    send store tex (Value.dict f) = sendUser store tex f c nm u := by
  have hf : truthy (Value.dict f) = true := truthy_dict (assocGet_ne_nil h1)
  have hc : truthy (Value.dict c) = true := truthy_dict (assocGet_ne_nil h5)
  simp only [send, hf, h1, h2, h3, hc, sendCtx, h5, h6, Bool.true_eq_false,
    if_false, if_true]

/-- Reaching the user-id fallback: with a truthy name, a truthy dict
context and a falsy (or absent) context user id, `send` consults the
top-level user id. -/
theorem send_reach_fallback (store : Value → Option UserRec) (tex : Option String)
    (f c : List (String × Value)) (nm : Value)
    (h1 : assocGet f "name" = some nm) (h2 : truthy nm = true)
    (h3 : assocGet f "context" = some (Value.dict c)) (h4 : c ≠ [])
    (h5 : truthyO (assocGet c "user_id") = false) :
    send store tex (Value.dict f) = sendUserIdFallback store tex f c nm := by
  have hf : truthy (Value.dict f) = true := truthy_dict (assocGet_ne_nil h1)
  have hc : truthy (Value.dict c) = true := truthy_dict h4
  cases hu : assocGet c "user_id" with
  | none =>
    simp only [send, hf, h1, h2, h3, hc, sendCtx, hu, Bool.true_eq_false,
      if_false, if_true]
  | some v =>
    rw [hu] at h5
    simp only [truthyO] at h5
    simp only [send, hf, h1, h2, h3, hc, sendCtx, hu, h5, Bool.true_eq_false,
      Bool.false_eq_true, if_false, if_true]

/-- Malformed events (empty, or missing the name key, or missing the
context key) terminate `send` before any lookup or transport call, with
a normal return. -/
theorem send_malformed (store : Value → Option UserRec) (tex : Option String)
    (f : List (String × Value))
    (h : f = [] ∨ assocGet f "name" = Option.none ∨ assocGet f "context" = Option.none) :
    (send store tex (Value.dict f)).lookups = [] ∧
    (send store tex (Value.dict f)).invocations = [] ∧
    (send store tex (Value.dict f)).outcome = Outcome.ret := by
  by_cases hf : truthy (Value.dict f) = false
  · simp [send, hf]
  · have hf' : truthy (Value.dict f) = true := by
      revert hf
      cases truthy (Value.dict f) <;> simp
    cases hname : assocGet f "name" with
    | none => simp [send, hf', hname]
    | some nm =>
      rcases h with h | h | h
      · subst h
        simp [truthy] at hf'
      · rw [h] at hname
        exact absurd hname (by simp)
      · by_cases hnm : truthy nm = false
        · simp [send, hf', hname, hnm]
        · have hnm' : truthy nm = true := by
            revert hnm
            cases truthy nm <;> simp
          simp [send, hf', hname, hnm', h]

/-- User store of the end-to-end example of the spec: user 10 resolves
to the email a@x.com (and some username). -/
def storeC1 : Value → Option UserRec :=
  fun v => if valueBeq v (Value.int 10) then some ⟨"a@x.com", "user10"⟩ else Option.none

/-- Input event of the end-to-end example of the spec: a name and a
context with user_id 10, and no data mapping. -/
def eventC1 : Value :=
  Value.dict [("name", Value.str "edx.course.enrollment.activated"),
              ("context", Value.dict [("user_id", Value.int 10)])]

/-- Payload the claim expects the transport to receive for `eventC1`
(JSON with the enriched context). -/
def payloadC1 : String :=
  "\x7b\"name\": \"edx.course.enrollment.activated\", \"context\": \x7b\"user_id\": 10, \"email\": \"a@x.com\"\x7d\x7d"

/-- C1 (counterexample): for the end-to-end example event, which has no
data mapping, awslambda.py `send` performs no transport invocation at
all, in particular not the single expected invocation with the enriched
payload: the claim fails on the code. -/
theorem C1_counterexample :
    (send storeC1 Option.none eventC1).invocations = [] ∧
    (send storeC1 Option.none eventC1).invocations ≠ [payloadC1] := by
  have h : (send storeC1 Option.none eventC1).invocations = [] := rfl
  refine ⟨h, ?_⟩
  rw [h]
  simp

/-- C1 (amended): for the end-to-end example event with user 10
resolving to a@x.com, `send` looks up user 10 and sets
context["email"] to a@x.com in the caller's event, but then logs a
warning that the event has no data object and drops it: the transport
is never invoked and `send` returns None. -/
theorem C1_amended_drop_without_data :
    send storeC1 Option.none eventC1 =
      ⟨[Value.int 10],
       [LogEntry.infoCallFor (Value.str "edx.course.enrollment.activated"),
        LogEntry.warnNoData (Value.str "edx.course.enrollment.activated")],
       [], Outcome.ret,
       Value.dict [("name", Value.str "edx.course.enrollment.activated"),
                   ("context", Value.dict [("user_id", Value.int 10),
                                           ("email", Value.str "a@x.com")])]⟩ := rfl

/-- C2 (counterexample): in the aws_lambda.py revision, `send` on the
empty event with a configured ARN raises NameError instead of
returning without exception: the claim fails on that revision. -/
theorem C2_counterexample :
    (sendLegacy (some "arn:aws:lambda:us-west-2:123:function:EventTracker")
        (Value.dict [])).outcome = Outcome.exc "NameError" ∧
    (sendLegacy (some "arn:aws:lambda:us-west-2:123:function:EventTracker")
        (Value.dict [])).outcome ≠ Outcome.ret := by
  have h : (sendLegacy (some "arn:aws:lambda:us-west-2:123:function:EventTracker")
      (Value.dict [])).outcome = Outcome.exc "NameError" := rfl
  refine ⟨h, ?_⟩
  rw [h]
  simp

/-- C2 (amended): for every event that is empty or lacks the name key
or lacks the context key, the awslambda.py `send` performs no
user-store lookup and no transport invocation, returns None and raises
nothing; the aws_lambda.py `send` also performs no lookup and no
transport invocation on such events, and returns None when the ARN is
unset, but raises NameError whenever the ARN is configured (it
validates nothing and always reaches the broken transport line). -/
theorem C2_amended_malformed_events (store : Value → Option UserRec) (tex : Option String)
    (arn : Option String) (f : List (String × Value))
    (h : f = [] ∨ assocGet f "name" = Option.none ∨ assocGet f "context" = Option.none) :
    ((send store tex (Value.dict f)).lookups = [] ∧
     (send store tex (Value.dict f)).invocations = [] ∧
     (send store tex (Value.dict f)).outcome = Outcome.ret) ∧
    ((sendLegacy arn (Value.dict f)).invocations = [] ∧
     (arn = Option.none → (sendLegacy arn (Value.dict f)).outcome = Outcome.ret) ∧
     (∀ a, arn = some a → (sendLegacy arn (Value.dict f)).outcome = Outcome.exc "NameError")) := by
  refine ⟨send_malformed store tex f h, ?_, ?_, ?_⟩
  · cases arn <;> rfl
  · intro ha
    subst ha
    rfl
  · intro a ha
    subst ha
    rfl

/-- C2 witness: a concrete event with a name but no context, and a
configured ARN. -/
theorem C2_amended_witness :
    (([("name", Value.str "edx.bi.user.account.registered")] :
        List (String × Value)) = [] ∨
      assocGet [("name", Value.str "edx.bi.user.account.registered")] "name" = Option.none ∨
      assocGet [("name", Value.str "edx.bi.user.account.registered")] "context" = Option.none) ∧
    (((send storeC1 Option.none
        (Value.dict [("name", Value.str "edx.bi.user.account.registered")])).lookups = [] ∧
      (send storeC1 Option.none
        (Value.dict [("name", Value.str "edx.bi.user.account.registered")])).invocations = [] ∧
      (send storeC1 Option.none
        (Value.dict [("name", Value.str "edx.bi.user.account.registered")])).outcome = Outcome.ret) ∧
     ((sendLegacy (some "arn:x")
        (Value.dict [("name", Value.str "edx.bi.user.account.registered")])).invocations = [] ∧
      ((some "arn:x" : Option String) = Option.none →
        (sendLegacy (some "arn:x")
          (Value.dict [("name", Value.str "edx.bi.user.account.registered")])).outcome = Outcome.ret) ∧
      (∀ a, (some "arn:x" : Option String) = some a →
        (sendLegacy (some "arn:x")
          (Value.dict [("name", Value.str "edx.bi.user.account.registered")])).outcome
            = Outcome.exc "NameError"))) :=
  ⟨Or.inr (Or.inr rfl),
   C2_amended_malformed_events storeC1 Option.none (some "arn:x")
     [("name", Value.str "edx.bi.user.account.registered")] (Or.inr (Or.inr rfl))⟩

/-- C10: in the aws_lambda.py revision the transport line references
the bare name client, which resolves neither among the locals of send
nor among the module globals (it is only a class attribute), so with a
configured ARN every call raises NameError, and no event is ever
forwarded by this revision (the invocation list is empty for every
event and every ARN). -/
theorem C10_legacy_send_name_error (arn : Option String) (ev : Value) :
    (sendLegacy arn ev).invocations = [] ∧
    resolvesBareName "client" = false ∧
    awsLambdaClassAttrs.contains "client" = true ∧
    (∀ a, arn = some a → (sendLegacy arn ev).outcome = Outcome.exc "NameError") := by
  refine ⟨?_, rfl, rfl, ?_⟩
  · cases arn <;> rfl
  · intro a ha
    subst ha
    rfl

/-- C10 witness: the NameError at a concrete ARN and event. -/
theorem C10_witness :
    (sendLegacy (some "arn:aws:lambda:us-west-1:0:function:EventTracker") eventC1).invocations
      = [] ∧
    (sendLegacy (some "arn:aws:lambda:us-west-1:0:function:EventTracker") eventC1).outcome
      = Outcome.exc "NameError" :=
  ⟨(C10_legacy_send_name_error (some "arn:aws:lambda:us-west-1:0:function:EventTracker")
      eventC1).1,
   (C10_legacy_send_name_error (some "arn:aws:lambda:us-west-1:0:function:EventTracker")
      eventC1).2.2.2 _ rfl⟩

/-- Outcome of the transport stage: a normal return, or exactly the
exception the transport raised. -/
theorem sendInvoke_outcome (tex : Option String) (lks : List Value) (lgs : List LogEntry)
    (nm : Value) (f2 : List (String × Value)) :
    (sendInvoke tex lks lgs nm f2).outcome = Outcome.ret ∨
    ∃ e, tex = some e ∧ (sendInvoke tex lks lgs nm f2).outcome = Outcome.exc e := by
  cases tex with
  | none => exact Or.inl rfl
  | some e => exact Or.inr ⟨e, rfl, rfl⟩

/-- Outcome of the data stage under a dict-shaped data value. -/
theorem sendData_outcome (store : Value → Option UserRec) (tex : Option String)
    (u : Value) (user : UserRec) (nm : Value) (f1 : List (String × Value))
    (hshape : ∀ v, assocGet f1 "data" = some v → truthy v = true → ∃ dl, v = Value.dict dl) :
    (sendData store tex u user nm f1).outcome = Outcome.ret ∨
    ∃ e, tex = some e ∧ (sendData store tex u user nm f1).outcome = Outcome.exc e := by
  simp only [sendData]
  cases hd : assocGet f1 "data" with
  | none => exact Or.inl rfl
  | some dv =>
    dsimp only
    by_cases ht : truthy dv = false
    · rw [if_pos ht]
      exact Or.inl rfl
    · rw [if_neg ht]
      have ht' : truthy dv = true := by
        revert ht
        cases truthy dv <;> simp
      obtain ⟨dl, rfl⟩ := hshape dv hd ht'
      dsimp only
      by_cases hbeq : valueBeq (dataUserId dl u) u = true
      · rw [if_pos hbeq]
        exact sendInvoke_outcome tex _ _ nm _
      · rw [if_neg hbeq]
        cases hst : store (dataUserId dl u) with
        | none => exact Or.inl rfl
        | some du => exact sendInvoke_outcome tex _ _ nm _

/-- Outcome of the user stage under a dict-shaped data value (the
context write touches only the context key, so the shape of the data
value carries over). -/
theorem sendUser_outcome (store : Value → Option UserRec) (tex : Option String)
    (f c : List (String × Value)) (nm u : Value)
    (hshape : ∀ v, assocGet f "data" = some v → truthy v = true → ∃ dl, v = Value.dict dl) :
    (sendUser store tex f c nm u).outcome = Outcome.ret ∨
    ∃ e, tex = some e ∧ (sendUser store tex f c nm u).outcome = Outcome.exc e := by
  simp only [sendUser]
  cases hst : store u with
  | none => exact Or.inl rfl
  | some user =>
    dsimp only
    apply sendData_outcome
    intro v hv ht
    rw [assocGet_assocSet_ne _ _ (by decide : "context" ≠ "data")] at hv
    exact hshape v hv ht

/-- Outcome of the user-id fallback stage. -/
theorem sendFallback_outcome (store : Value → Option UserRec) (tex : Option String)
    (f c : List (String × Value)) (nm : Value)
    (hshape : ∀ v, assocGet f "data" = some v → truthy v = true → ∃ dl, v = Value.dict dl) :
    (sendUserIdFallback store tex f c nm).outcome = Outcome.ret ∨
    ∃ e, tex = some e ∧ (sendUserIdFallback store tex f c nm).outcome = Outcome.exc e := by
  simp only [sendUserIdFallback]
  cases hu : assocGet f "user_id" with
  | none => exact Or.inl rfl
  | some v =>
    dsimp only
    by_cases ht : truthy v = true
    · rw [if_pos ht]
      exact sendUser_outcome store tex f c nm v hshape
    · rw [if_neg ht]
      exact Or.inl rfl

/-- Outcome of the context stage. -/
theorem sendCtx_outcome (store : Value → Option UserRec) (tex : Option String)
    (f c : List (String × Value)) (nm : Value)
    (hshape : ∀ v, assocGet f "data" = some v → truthy v = true → ∃ dl, v = Value.dict dl) :
    (sendCtx store tex f c nm).outcome = Outcome.ret ∨
    ∃ e, tex = some e ∧ (sendCtx store tex f c nm).outcome = Outcome.exc e := by
  simp only [sendCtx]
  cases hu : assocGet c "user_id" with
  | none => exact sendFallback_outcome store tex f c nm hshape
  | some v =>
    dsimp only
    by_cases ht : truthy v = true
    · rw [if_pos ht]
      exact sendUser_outcome store tex f c nm v hshape
    · rw [if_neg ht]
      exact sendFallback_outcome store tex f c nm hshape

/-- Events whose nested structure matches what the field accesses of
`send` require: a truthy event is a dict, and truthy context and data
values are dicts (falsy or absent ones are rejected by the truthiness
guards before any attribute access). -/
def DictShaped (ev : Value) : Prop :=
  (truthy ev = true → ∃ f, ev = Value.dict f) ∧
  (∀ f, ev = Value.dict f →
    (∀ v, assocGet f "context" = some v → truthy v = true → ∃ c, v = Value.dict c) ∧
    (∀ v, assocGet f "data" = some v → truthy v = true → ∃ dl, v = Value.dict dl))

/-- Concrete well-formed event with a data mapping (reaches the
transport call when user 10 resolves). -/
def eventFull : Value :=
  Value.dict [("name", Value.str "edx.course.enrollment.activated"),
              ("context", Value.dict [("user_id", Value.int 10)]),
              ("data", Value.dict [("course_id", Value.str "course-v1:edX+DemoX+Demo")])]

/-- C3 (counterexample): for a well-formed event that reaches the
unguarded `self.client.invoke` call, an exception raised by the
transport propagates out of `send`: the claim that `send` never
propagates an exception fails on the code. -/
theorem C3_counterexample :
    (send storeC1 (some "ClientError") eventFull).outcome = Outcome.exc "ClientError" ∧
    (send storeC1 (some "ClientError") eventFull).outcome ≠ Outcome.ret := by
  have h : (send storeC1 (some "ClientError") eventFull).outcome
      = Outcome.exc "ClientError" := rfl
  refine ⟨h, ?_⟩
  rw [h]
  simp

/-- C3 (amended): for every dict-shaped event, every user store and
every transport outcome, `send` either returns normally or propagates
exactly the exception raised by the unguarded transport call; every
failure path before the transport call (validation, lookup, encoding)
is logged and returns normally. -/
theorem C3_amended_exceptions (store : Value → Option UserRec) (tex : Option String)
    (ev : Value) (hs : DictShaped ev) :
    (send store tex ev).outcome = Outcome.ret ∨
    ∃ e, tex = some e ∧ (send store tex ev).outcome = Outcome.exc e := by
  obtain ⟨hs1, hs2⟩ := hs
  by_cases hf : truthy ev = false
  · left
    simp [send, hf]
  · have hf' : truthy ev = true := by
      revert hf
      cases truthy ev <;> simp
    obtain ⟨f, rfl⟩ := hs1 hf'
    obtain ⟨hctx, hdata⟩ := hs2 f rfl
    simp only [send, hf', Bool.true_eq_false, if_false]
    cases hname : assocGet f "name" with
    | none => exact Or.inl rfl
    | some nm =>
      dsimp only
      by_cases hnm : truthy nm = false
      · rw [if_pos hnm]
        exact Or.inl rfl
      · rw [if_neg hnm]
        have hnm' : truthy nm = true := by
          revert hnm
          cases truthy nm <;> simp
        cases hcv : assocGet f "context" with
        | none => exact Or.inl rfl
        | some cv =>
          dsimp only
          by_cases hct : truthy cv = false
          · rw [if_pos hct]
            exact Or.inl rfl
          · rw [if_neg hct]
            have hct' : truthy cv = true := by
              revert hct
              cases truthy cv <;> simp
            obtain ⟨c, rfl⟩ := hctx cv hcv hct'
            exact sendCtx_outcome store tex f c nm hdata

/-- Shape of the concrete full event. -/
theorem eventFull_shaped : DictShaped eventFull := by
  constructor
  · intro _
    exact ⟨_, rfl⟩
  · intro f hf
    cases hf
    constructor
    · intro v hv ht
      have hv' : v = Value.dict [("user_id", Value.int 10)] := by
        simpa [assocGet] using hv.symm
      exact ⟨_, hv'⟩
    · intro v hv ht
      have hv' : v = Value.dict [("course_id", Value.str "course-v1:edX+DemoX+Demo")] := by
        simpa [assocGet] using hv.symm
      exact ⟨_, hv'⟩

/-- C3 witness: the amended exception contract evaluated at the
concrete full event with a succeeding transport. -/
theorem C3_amended_witness :
    DictShaped eventFull ∧
    ((send storeC1 Option.none eventFull).outcome = Outcome.ret ∨
     ∃ e, (Option.none : Option String) = some e ∧
       (send storeC1 Option.none eventFull).outcome = Outcome.exc e) :=
  ⟨eventFull_shaped, C3_amended_exceptions storeC1 Option.none eventFull eventFull_shaped⟩

/-- First user-store lookup of the user stage is always the id it was
entered with, regardless of how the rest of the stage unfolds. -/
theorem sendUser_lookups_head (store : Value → Option UserRec) (tex : Option String)
    (f c : List (String × Value)) (nm u : Value) :
    (sendUser store tex f c nm u).lookups.head? = some u := by
  simp only [sendUser]
  cases hst : store u with
  | none => rfl
  | some user =>
    simp only [sendData]
    cases hd : assocGet (assocSet f "context"
        (Value.dict (assocSet c "email" (Value.str user.email)))) "data" with
    | none => rfl
    | some dv =>
      dsimp only
      by_cases ht : truthy dv = false
      · rw [if_pos ht]
        rfl
      · rw [if_neg ht]
        cases dv with
        | dict dl =>
          dsimp only
          by_cases hbeq : valueBeq (dataUserId dl u) u = true
          · rw [if_pos hbeq]
            cases tex <;> rfl
          · rw [if_neg hbeq]
            cases hst2 : store (dataUserId dl u) with
            | none => rfl
            | some du => cases tex <;> rfl
        | str s => rfl
        | int n => rfl
        | dt d => rfl
        | date d => rfl
        | pynone => rfl

/-- C4: for every event whose context carries a truthy user id that the
user store cannot resolve, `send` performs no transport invocation and
returns None; moreover, whenever the event also carries a truthy name
(so that execution reaches the lookup at all), the error log for the
unresolvable user is emitted and the lookup list is exactly that one
id. -/
theorem C4_unresolvable_user (store : Value → Option UserRec) (tex : Option String)
    (f c : List (String × Value)) (u : Value)
    (hc : assocGet f "context" = some (Value.dict c))
    (hu : assocGet c "user_id" = some u) (hut : truthy u = true)
    (hstore : store u = Option.none) :
    (send store tex (Value.dict f)).invocations = [] ∧
    (send store tex (Value.dict f)).outcome = Outcome.ret ∧
    (∀ nm, assocGet f "name" = some nm → truthy nm = true →
      LogEntry.errUserNotFound u ∈ (send store tex (Value.dict f)).logs ∧
      (send store tex (Value.dict f)).lookups = [u]) := by
  have hf : truthy (Value.dict f) = true := truthy_dict (assocGet_ne_nil hc)
  cases hname : assocGet f "name" with
  | none =>
    have hsend : send store tex (Value.dict f) =
        ⟨[], [LogEntry.warnNoName], [], Outcome.ret, Value.dict f⟩ := by
      simp only [send, hf, Bool.true_eq_false, if_false, hname]
    rw [hsend]
    refine ⟨rfl, rfl, ?_⟩
    intro nm h _
    exact absurd h (by simp)
  | some nm =>
    by_cases hnm : truthy nm = true
    · have hsend := send_reach_sendUser store tex f c nm u hname hnm hc hu hut
      rw [hsend]
      have huser : sendUser store tex f c nm u =
          ⟨[u], [LogEntry.infoCallFor nm, LogEntry.errUserNotFound u], [],
           Outcome.ret, Value.dict f⟩ := by
        simp only [sendUser, hstore]
      rw [huser]
      refine ⟨rfl, rfl, ?_⟩
      intro nm2 h h2
      have hnm2 : nm2 = nm := by
        injection h with h3
        exact h3.symm
      subst hnm2
      exact ⟨by simp, rfl⟩
    · have hnm' : truthy nm = false := by
        revert hnm
        cases truthy nm <;> simp
      have hsend : send store tex (Value.dict f) =
          ⟨[], [LogEntry.warnNoName], [], Outcome.ret, Value.dict f⟩ := by
        simp only [send, hf, Bool.true_eq_false, if_false, hname]
        rw [if_pos hnm']
      rw [hsend]
      refine ⟨rfl, rfl, ?_⟩
      intro nm2 h h2
      have hnm2 : nm2 = nm := by
        injection h with h3
        exact h3.symm
      subst hnm2
      rw [h2] at hnm'
      exact absurd hnm' (by simp)

/-- User store in which no id resolves. -/
def storeEmpty : Value → Option UserRec := fun _ => Option.none

/-- C4 witness: a concrete event with user id 99 against the empty
store. -/
theorem C4_witness :
    (send storeEmpty Option.none
      (Value.dict [("name", Value.str "edx.course.enrollment.activated"),
                   ("context", Value.dict [("user_id", Value.int 99)])])).invocations = [] ∧
    (send storeEmpty Option.none
      (Value.dict [("name", Value.str "edx.course.enrollment.activated"),
                   ("context", Value.dict [("user_id", Value.int 99)])])).outcome
        = Outcome.ret ∧
    (∀ nm, assocGet [("name", Value.str "edx.course.enrollment.activated"),
                     ("context", Value.dict [("user_id", Value.int 99)])] "name" = some nm →
      truthy nm = true →
      LogEntry.errUserNotFound (Value.int 99) ∈
        (send storeEmpty Option.none
          (Value.dict [("name", Value.str "edx.course.enrollment.activated"),
                       ("context", Value.dict [("user_id", Value.int 99)])])).logs ∧
      (send storeEmpty Option.none
        (Value.dict [("name", Value.str "edx.course.enrollment.activated"),
                     ("context", Value.dict [("user_id", Value.int 99)])])).lookups
          = [Value.int 99]) :=
  C4_unresolvable_user storeEmpty Option.none
    [("name", Value.str "edx.course.enrollment.activated"),
     ("context", Value.dict [("user_id", Value.int 99)])]
    [("user_id", Value.int 99)] (Value.int 99) rfl rfl rfl rfl

/-- C6: with a truthy name and a truthy dict context, the user id used
for the lookup comes from the context when its user_id is truthy;
otherwise from the top-level user_id of the event when that one is
truthy; and when both are falsy or absent, `send` logs the no-user-id
warning and returns with no lookup and no transport invocation. -/
theorem C6_user_id_source (store : Value → Option UserRec) (tex : Option String)
    (f c : List (String × Value)) (nm : Value)
    (h1 : assocGet f "name" = some nm) (h2 : truthy nm = true)
    (h3 : assocGet f "context" = some (Value.dict c)) (h4 : c ≠ []) :
    (∀ u, assocGet c "user_id" = some u → truthy u = true →
        (send store tex (Value.dict f)).lookups.head? = some u) ∧
    (truthyO (assocGet c "user_id") = false →
      ∀ u, assocGet f "user_id" = some u → truthy u = true →
        (send store tex (Value.dict f)).lookups.head? = some u) ∧
    (truthyO (assocGet c "user_id") = false → truthyO (assocGet f "user_id") = false →
        (send store tex (Value.dict f)).lookups = [] ∧
        (send store tex (Value.dict f)).invocations = [] ∧
        (send store tex (Value.dict f)).outcome = Outcome.ret ∧
        LogEntry.warnNoUserId nm ∈ (send store tex (Value.dict f)).logs) := by
  refine ⟨?_, ?_, ?_⟩
  · intro u hu hut
    rw [send_reach_sendUser store tex f c nm u h1 h2 h3 hu hut]
    exact sendUser_lookups_head store tex f c nm u
  · intro hcu u hu hut
    rw [send_reach_fallback store tex f c nm h1 h2 h3 h4 hcu]
    simp only [sendUserIdFallback, hu]
    rw [if_pos hut]
    exact sendUser_lookups_head store tex f c nm u
  · intro hcu hfu
    rw [send_reach_fallback store tex f c nm h1 h2 h3 h4 hcu]
    cases hu : assocGet f "user_id" with
    | none =>
      simp [sendUserIdFallback, hu]
    | some v =>
      rw [hu] at hfu
      simp only [truthyO] at hfu
      simp only [sendUserIdFallback, hu]
      rw [if_neg (by simp [hfu])]
      simp

/-- C6 witness: a concrete event whose context has no user_id and whose
body carries user_id 7. -/
theorem C6_witness :
    (∀ u, assocGet [("org", Value.str "edX")] "user_id" = some u → truthy u = true →
        (send storeEmpty Option.none
          (Value.dict [("name", Value.str "edx.bi.user.account.registered"),
                       ("context", Value.dict [("org", Value.str "edX")]),
                       ("user_id", Value.int 7)])).lookups.head? = some u) ∧
    (truthyO (assocGet [("org", Value.str "edX")] "user_id") = false →
      ∀ u, assocGet [("name", Value.str "edx.bi.user.account.registered"),
                     ("context", Value.dict [("org", Value.str "edX")]),
                     ("user_id", Value.int 7)] "user_id" = some u → truthy u = true →
        (send storeEmpty Option.none
          (Value.dict [("name", Value.str "edx.bi.user.account.registered"),
                       ("context", Value.dict [("org", Value.str "edX")]),
                       ("user_id", Value.int 7)])).lookups.head? = some u) ∧
    (truthyO (assocGet [("org", Value.str "edX")] "user_id") = false →
      truthyO (assocGet [("name", Value.str "edx.bi.user.account.registered"),
                         ("context", Value.dict [("org", Value.str "edX")]),
                         ("user_id", Value.int 7)] "user_id") = false →
        (send storeEmpty Option.none
          (Value.dict [("name", Value.str "edx.bi.user.account.registered"),
                       ("context", Value.dict [("org", Value.str "edX")]),
                       ("user_id", Value.int 7)])).lookups = [] ∧
        (send storeEmpty Option.none
          (Value.dict [("name", Value.str "edx.bi.user.account.registered"),
                       ("context", Value.dict [("org", Value.str "edX")]),
                       ("user_id", Value.int 7)])).invocations = [] ∧
        (send storeEmpty Option.none
          (Value.dict [("name", Value.str "edx.bi.user.account.registered"),
                       ("context", Value.dict [("org", Value.str "edX")]),
                       ("user_id", Value.int 7)])).outcome = Outcome.ret ∧
        LogEntry.warnNoUserId (Value.str "edx.bi.user.account.registered") ∈
          (send storeEmpty Option.none
            (Value.dict [("name", Value.str "edx.bi.user.account.registered"),
                         ("context", Value.dict [("org", Value.str "edX")]),
                         ("user_id", Value.int 7)])).logs) :=
  C6_user_id_source storeEmpty Option.none
    [("name", Value.str "edx.bi.user.account.registered"),
     ("context", Value.dict [("org", Value.str "edX")]),
     ("user_id", Value.int 7)]
    [("org", Value.str "edX")] (Value.str "edx.bi.user.account.registered")
    rfl rfl rfl (by simp)

/-- Event fields after full enrichment: context["email"] set from the
context user, and data["email"]/data["username"] set from the data
user (awslambda.py lines 93-125). -/
def enrichedFields (f c dl : List (String × Value)) (ctxUser dataUser : UserRec) :
    List (String × Value) :=
  assocSet (assocSet f "context" (Value.dict (assocSet c "email" (Value.str ctxUser.email))))
    "data"
    (Value.dict (assocSet (assocSet dl "email" (Value.str dataUser.email))
      "username" (Value.str dataUser.username)))

/-- Components of the transport stage trace. -/
theorem sendInvoke_components (tex : Option String) (lks : List Value)
    (lgs : List LogEntry) (nm : Value) (f2 : List (String × Value)) :
    (sendInvoke tex lks lgs nm f2).lookups = lks ∧
    (sendInvoke tex lks lgs nm f2).invocations = [dumpVal (Value.dict f2)] ∧
    (sendInvoke tex lks lgs nm f2).finalEvent = Value.dict f2 := by
  cases tex <;> exact ⟨rfl, rfl, rfl⟩

/-- Characterization of the data stage on a truthy dict data value:
the same-user branch, the resolved different-user branch and the
unresolvable different-user branch. -/
theorem sendData_char (store : Value → Option UserRec) (tex : Option String)
    (u : Value) (user : UserRec) (nm : Value) (f1 dl : List (String × Value))
    (hd : assocGet f1 "data" = some (Value.dict dl)) (hdne : dl ≠ []) :
    (valueBeq (dataUserId dl u) u = true →
      sendData store tex u user nm f1 =
        sendInvoke tex [u] [LogEntry.infoCallFor nm] nm
          (assocSet f1 "data"
            (Value.dict (assocSet (assocSet dl "email" (Value.str user.email))
              "username" (Value.str user.username))))) ∧
    (valueBeq (dataUserId dl u) u = false →
      (∀ du, store (dataUserId dl u) = some du →
        sendData store tex u user nm f1 =
          sendInvoke tex [u, dataUserId dl u] [LogEntry.infoCallFor nm] nm
            (assocSet f1 "data"
              (Value.dict (assocSet (assocSet dl "email" (Value.str du.email))
                "username" (Value.str du.username))))) ∧
      (store (dataUserId dl u) = Option.none →
        sendData store tex u user nm f1 =
          ⟨[u, dataUserId dl u],
           [LogEntry.infoCallFor nm, LogEntry.errDataUserNotFound (dataUserId dl u)],
           [], Outcome.ret, Value.dict f1⟩)) := by
  have ht : truthy (Value.dict dl) = true := truthy_dict hdne
  have ht' : ¬ (truthy (Value.dict dl) = false) := by
    rw [ht]
    simp
  refine ⟨?_, ?_⟩
  · intro hbeq
    simp only [sendData, hd]
    rw [if_neg ht', if_pos hbeq]
  · intro hbeq
    have hbeq' : ¬ (valueBeq (dataUserId dl u) u = true) := by
      rw [hbeq]
      simp
    refine ⟨?_, ?_⟩
    · intro du hdu
      simp only [sendData, hd]
      rw [if_neg ht', if_neg hbeq', hdu]
    · intro hdu
      simp only [sendData, hd]
      rw [if_neg ht', if_neg hbeq', hdu]

/-- C7: in the data-enrichment revision (awslambda.py), once the
context user is resolved: a missing or falsy data mapping drops the
event with a warning and no transport call; a data mapping whose user
id equals (or defaults to) the context user id gets data["email"] and
data["username"] from the already-resolved context user, with no
second lookup; a differing data user id is resolved separately and its
record fills data["email"]/data["username"]; and when that separate
resolution fails the event is dropped with an error log and no
transport call. -/
theorem C7_data_enrichment (store : Value → Option UserRec) (tex : Option String)
    (f c : List (String × Value)) (nm u : Value) (rec : UserRec)
    (h1 : assocGet f "name" = some nm) (h2 : truthy nm = true)
    (h3 : assocGet f "context" = some (Value.dict c))
    (h5 : assocGet c "user_id" = some u) (h6 : truthy u = true)
    (h7 : store u = some rec) :
    (truthyO (assocGet f "data") = false →
      (send store tex (Value.dict f)).invocations = [] ∧
      (send store tex (Value.dict f)).outcome = Outcome.ret ∧
      LogEntry.warnNoData nm ∈ (send store tex (Value.dict f)).logs) ∧
    (∀ dl, assocGet f "data" = some (Value.dict dl) → dl ≠ [] →
      (valueBeq (dataUserId dl u) u = true →
        (send store tex (Value.dict f)).lookups = [u] ∧
        (send store tex (Value.dict f)).finalEvent
          = Value.dict (enrichedFields f c dl rec rec) ∧
        (send store tex (Value.dict f)).invocations
          = [dumpVal (Value.dict (enrichedFields f c dl rec rec))]) ∧
      (valueBeq (dataUserId dl u) u = false →
        (∀ du, store (dataUserId dl u) = some du →
          (send store tex (Value.dict f)).lookups = [u, dataUserId dl u] ∧
          (send store tex (Value.dict f)).finalEvent
            = Value.dict (enrichedFields f c dl rec du) ∧
          (send store tex (Value.dict f)).invocations
            = [dumpVal (Value.dict (enrichedFields f c dl rec du))]) ∧
        (store (dataUserId dl u) = Option.none →
          (send store tex (Value.dict f)).invocations = [] ∧
          (send store tex (Value.dict f)).outcome = Outcome.ret ∧
          (send store tex (Value.dict f)).lookups = [u, dataUserId dl u] ∧
          LogEntry.errDataUserNotFound (dataUserId dl u) ∈
            (send store tex (Value.dict f)).logs))) := by
  have hsend := send_reach_sendUser store tex f c nm u h1 h2 h3 h5 h6
  have huser : sendUser store tex f c nm u =
      sendData store tex u rec nm
        (assocSet f "context" (Value.dict (assocSet c "email" (Value.str rec.email)))) := by
    simp only [sendUser, h7]
  rw [hsend, huser]
  simp only [enrichedFields]
  have hgd : assocGet (assocSet f "context"
      (Value.dict (assocSet c "email" (Value.str rec.email)))) "data" = assocGet f "data" :=
    assocGet_assocSet_ne f _ (by decide : "context" ≠ "data")
  refine ⟨?_, ?_⟩
  · intro hnd
    cases hd : assocGet f "data" with
    | none =>
      have hnone : assocGet (assocSet f "context"
          (Value.dict (assocSet c "email" (Value.str rec.email)))) "data" = Option.none := by
        rw [hgd, hd]
      simp [sendData, hnone]
    | some dv =>
      rw [hd] at hnd
      simp only [truthyO] at hnd
      have hsome : assocGet (assocSet f "context"
          (Value.dict (assocSet c "email" (Value.str rec.email)))) "data" = some dv := by
        rw [hgd, hd]
      simp only [sendData, hsome]
      rw [if_pos hnd]
      simp
  · intro dl hd hdne
    have hsome : assocGet (assocSet f "context"
        (Value.dict (assocSet c "email" (Value.str rec.email)))) "data"
          = some (Value.dict dl) := by
      rw [hgd, hd]
    have hchar := sendData_char store tex u rec nm _ dl hsome hdne
    refine ⟨?_, ?_⟩
    · intro hbeq
      rw [hchar.1 hbeq]
      exact ⟨(sendInvoke_components tex _ _ nm _).1,
             (sendInvoke_components tex _ _ nm _).2.2,
             (sendInvoke_components tex _ _ nm _).2.1⟩
    · intro hbeq
      refine ⟨?_, ?_⟩
      · intro du hdu
        rw [(hchar.2 hbeq).1 du hdu]
        exact ⟨(sendInvoke_components tex _ _ nm _).1,
               (sendInvoke_components tex _ _ nm _).2.2,
               (sendInvoke_components tex _ _ nm _).2.1⟩
      · intro hdu
        rw [(hchar.2 hbeq).2 hdu]
        exact ⟨rfl, rfl, rfl, by simp⟩

/-- User store resolving the context user 10 and the data user 3. -/
def storeTwo : Value → Option UserRec :=
  fun v => if valueBeq v (Value.int 10) then some ⟨"a@x.com", "user10"⟩
           else if valueBeq v (Value.int 3) then some ⟨"t@x.com", "teacher"⟩
           else Option.none

/-- Event fields with a data user (3) differing from the context user
(10): an instructor enrolling a student. -/
def fieldsW8 : List (String × Value) :=
  [("name", Value.str "edx.course.enrollment.activated"),
   ("context", Value.dict [("user_id", Value.int 10)]),
   ("data", Value.dict [("user_id", Value.int 3)])]

/-- C7 witness: the different-user branch evaluated on a concrete
event with context user 10 and data user 3. -/
theorem C7_witness :
    (send storeTwo Option.none (Value.dict fieldsW8)).lookups
      = [Value.int 10, Value.int 3] ∧
    (send storeTwo Option.none (Value.dict fieldsW8)).invocations
      = [dumpVal (Value.dict (enrichedFields fieldsW8
          [("user_id", Value.int 10)] [("user_id", Value.int 3)]
          ⟨"a@x.com", "user10"⟩ ⟨"t@x.com", "teacher"⟩))] := by
  have h := C7_data_enrichment storeTwo Option.none fieldsW8
    [("user_id", Value.int 10)] (Value.str "edx.course.enrollment.activated")
    (Value.int 10) ⟨"a@x.com", "user10"⟩ rfl rfl rfl rfl rfl rfl
  have h2 := (h.2 [("user_id", Value.int 3)] rfl (by simp)).2 rfl
  have h3 := h2.1 ⟨"t@x.com", "teacher"⟩ rfl
  exact ⟨h3.1, h3.2.2⟩

/-- Well-formed events that reach the transport produce exactly the
transport stage on the fully enriched event (the lookup list depends
on whether the data user coincided with the context user). -/
theorem send_wellformed_invoke (store : Value → Option UserRec) (tex : Option String)
    (f c dl : List (String × Value)) (nm u : Value) (rec du : UserRec)
    (h1 : assocGet f "name" = some nm) (h2 : truthy nm = true)
    (h3 : assocGet f "context" = some (Value.dict c))
    (h5 : assocGet c "user_id" = some u) (h6 : truthy u = true)
    (h7 : store u = some rec)
    (hd : assocGet f "data" = some (Value.dict dl)) (hdne : dl ≠ [])
    (hcase : (valueBeq (dataUserId dl u) u = true ∧ du = rec) ∨
             (valueBeq (dataUserId dl u) u = false ∧ store (dataUserId dl u) = some du)) :
    ∃ lks, send store tex (Value.dict f)
      = sendInvoke tex lks [LogEntry.infoCallFor nm] nm (enrichedFields f c dl rec du) := by
  have hsend := send_reach_sendUser store tex f c nm u h1 h2 h3 h5 h6
  have huser : sendUser store tex f c nm u =
      sendData store tex u rec nm
        (assocSet f "context" (Value.dict (assocSet c "email" (Value.str rec.email)))) := by
    simp only [sendUser, h7]
  have hgd : assocGet (assocSet f "context"
      (Value.dict (assocSet c "email" (Value.str rec.email)))) "data"
        = some (Value.dict dl) := by
    rw [assocGet_assocSet_ne f _ (by decide : "context" ≠ "data"), hd]
  have hchar := sendData_char store tex u rec nm _ dl hgd hdne
  rcases hcase with ⟨hbeq, hdu⟩ | ⟨hbeq, hdu⟩
  · subst hdu
    refine ⟨[u], ?_⟩
    rw [hsend, huser, hchar.1 hbeq]
    rfl
  · refine ⟨[u, dataUserId dl u], ?_⟩
    rw [hsend, huser, (hchar.2 hbeq).1 du hdu]
    rfl

/-- Reads on the enriched event: the context and data slots hold the
enriched dicts, every other key is untouched. -/
theorem enrichedFields_gets (f c dl : List (String × Value)) (rec du : UserRec) :
    assocGet (enrichedFields f c dl rec du) "context"
      = some (Value.dict (assocSet c "email" (Value.str rec.email))) ∧
    assocGet (enrichedFields f c dl rec du) "data"
      = some (Value.dict (assocSet (assocSet dl "email" (Value.str du.email))
          "username" (Value.str du.username))) ∧
    (∀ k, k ≠ "context" → k ≠ "data" →
      assocGet (enrichedFields f c dl rec du) k = assocGet f k) := by
  refine ⟨?_, ?_, ?_⟩
  · unfold enrichedFields
    rw [assocGet_assocSet_ne _ _ (by decide : "data" ≠ "context")]
    exact assocGet_assocSet_self f "context" _
  · unfold enrichedFields
    exact assocGet_assocSet_self _ "data" _
  · intro k hk1 hk2
    unfold enrichedFields
    rw [assocGet_assocSet_ne _ _ (Ne.symm hk2), assocGet_assocSet_ne _ _ (Ne.symm hk1)]

/-- Sending the already enriched event again re-runs the same path and
re-produces the very same enriched event: enrichment is idempotent. -/
theorem send_enriched_fixpoint (store : Value → Option UserRec) (tex : Option String)
    (f c dl : List (String × Value)) (nm u : Value) (rec du : UserRec)
    (h1 : assocGet f "name" = some nm) (h2 : truthy nm = true)
    (h5 : assocGet c "user_id" = some u) (h6 : truthy u = true)
    (h7 : store u = some rec)
    (hcase : (valueBeq (dataUserId dl u) u = true ∧ du = rec) ∨
             (valueBeq (dataUserId dl u) u = false ∧ store (dataUserId dl u) = some du)) :
    ∃ lks, send store tex (Value.dict (enrichedFields f c dl rec du))
      = sendInvoke tex lks [LogEntry.infoCallFor nm] nm (enrichedFields f c dl rec du) := by
  obtain ⟨hg1, hg2, hg3⟩ := enrichedFields_gets f c dl rec du
  have h1' : assocGet (enrichedFields f c dl rec du) "name" = some nm := by
    rw [hg3 "name" (by decide) (by decide)]
    exact h1
  have h5' : assocGet (assocSet c "email" (Value.str rec.email)) "user_id" = some u := by
    rw [assocGet_assocSet_ne c _ (by decide : "email" ≠ "user_id")]
    exact h5
  have hdid : dataUserId (assocSet (assocSet dl "email" (Value.str du.email))
      "username" (Value.str du.username)) u = dataUserId dl u := by
    simp only [dataUserId]
    rw [assocGet_assocSet_ne _ _ (by decide : "username" ≠ "user_id"),
        assocGet_assocSet_ne _ _ (by decide : "email" ≠ "user_id")]
  have hcase' : (valueBeq (dataUserId (assocSet (assocSet dl "email" (Value.str du.email))
        "username" (Value.str du.username)) u) u = true ∧ du = rec) ∨
      (valueBeq (dataUserId (assocSet (assocSet dl "email" (Value.str du.email))
        "username" (Value.str du.username)) u) u = false ∧
       store (dataUserId (assocSet (assocSet dl "email" (Value.str du.email))
        "username" (Value.str du.username)) u) = some du) := by
    rw [hdid]
    exact hcase
  have hdne' : assocSet (assocSet dl "email" (Value.str du.email))
      "username" (Value.str du.username) ≠ [] := assocSet_ne_nil _ _ _
  obtain ⟨lks, hrun⟩ := send_wellformed_invoke store tex (enrichedFields f c dl rec du)
    (assocSet c "email" (Value.str rec.email))
    (assocSet (assocSet dl "email" (Value.str du.email)) "username" (Value.str du.username))
    nm u rec du h1' h2 hg1 h5' h6 h7 hg2 hdne' hcase'
  refine ⟨lks, ?_⟩
  rw [hrun]
  have e1 : assocSet (assocSet c "email" (Value.str rec.email)) "email"
      (Value.str rec.email) = assocSet c "email" (Value.str rec.email) :=
    assocSet_same (assocGet_assocSet_self c "email" _)
  have e2 : assocSet (assocSet (assocSet dl "email" (Value.str du.email))
      "username" (Value.str du.username)) "email" (Value.str du.email)
        = assocSet (assocSet dl "email" (Value.str du.email))
            "username" (Value.str du.username) := by
    apply assocSet_same
    rw [assocGet_assocSet_ne _ _ (by decide : "username" ≠ "email")]
    exact assocGet_assocSet_self dl "email" _
  congr 1
  conv_lhs => rw [enrichedFields, e1, e2]
  rw [assocSet_same hg1]
  rw [assocSet_same (assocGet_assocSet_self _ "username" _), assocSet_same hg2]

/-- C8: calling `send` twice with the same well-formed event (the
second call receiving the event as mutated in place by the first),
with the user store unchanged and a succeeding transport, produces a
transport invocation on each call and the two payloads are identical:
enrichment is idempotent under the in-place mutation and nothing
deduplicates the second invocation. -/
theorem C8_resend_identical (store : Value → Option UserRec)
    (f c dl : List (String × Value)) (nm u : Value) (rec du : UserRec)
    (h1 : assocGet f "name" = some nm) (h2 : truthy nm = true)
    (h3 : assocGet f "context" = some (Value.dict c))
    (h5 : assocGet c "user_id" = some u) (h6 : truthy u = true)
    (h7 : store u = some rec)
    (hd : assocGet f "data" = some (Value.dict dl)) (hdne : dl ≠ [])
    (hcase : (valueBeq (dataUserId dl u) u = true ∧ du = rec) ∨
             (valueBeq (dataUserId dl u) u = false ∧ store (dataUserId dl u) = some du)) :
    (send store Option.none (Value.dict f)).invocations.length = 1 ∧
    (send store Option.none (send store Option.none (Value.dict f)).finalEvent).invocations
      = (send store Option.none (Value.dict f)).invocations := by
  obtain ⟨lks1, ht1⟩ := send_wellformed_invoke store Option.none f c dl nm u rec du
    h1 h2 h3 h5 h6 h7 hd hdne hcase
  obtain ⟨lks2, ht2⟩ := send_enriched_fixpoint store Option.none f c dl nm u rec du
    h1 h2 h5 h6 h7 hcase
  have hfin : (send store Option.none (Value.dict f)).finalEvent
      = Value.dict (enrichedFields f c dl rec du) := by
    rw [ht1]
    rfl
  rw [hfin, ht1, ht2]
  exact ⟨rfl, rfl⟩

/-- C8 witness: two sends of a concrete event whose data user differs
from the context user. -/
theorem C8_witness :
    (send storeTwo Option.none (Value.dict fieldsW8)).invocations.length = 1 ∧
    (send storeTwo Option.none
        (send storeTwo Option.none (Value.dict fieldsW8)).finalEvent).invocations
      = (send storeTwo Option.none (Value.dict fieldsW8)).invocations :=
  C8_resend_identical storeTwo fieldsW8
    [("user_id", Value.int 10)] [("user_id", Value.int 3)]
    (Value.str "edx.course.enrollment.activated") (Value.int 10)
    ⟨"a@x.com", "user10"⟩ ⟨"t@x.com", "teacher"⟩
    rfl rfl rfl rfl rfl rfl rfl (by simp) (Or.inr ⟨rfl, rfl⟩)

/-- C9: a send that reaches the transport mutates the caller's event
in place to exactly the enriched event: context["email"] holds the
resolved email, data["email"] and data["username"] hold the data
user's record, and every other key of the event, of its context and of
its data is unchanged. -/
theorem C9_frame_mutation (store : Value → Option UserRec) (tex : Option String)
    (f c dl : List (String × Value)) (nm u : Value) (rec du : UserRec)
    (h1 : assocGet f "name" = some nm) (h2 : truthy nm = true)
    (h3 : assocGet f "context" = some (Value.dict c))
    (h5 : assocGet c "user_id" = some u) (h6 : truthy u = true)
    (h7 : store u = some rec)
    (hd : assocGet f "data" = some (Value.dict dl)) (hdne : dl ≠ [])
    (hcase : (valueBeq (dataUserId dl u) u = true ∧ du = rec) ∨
             (valueBeq (dataUserId dl u) u = false ∧ store (dataUserId dl u) = some du)) :
    (send store tex (Value.dict f)).finalEvent = Value.dict (enrichedFields f c dl rec du) ∧
    (send store tex (Value.dict f)).invocations.length = 1 ∧
    assocGet (enrichedFields f c dl rec du) "context"
      = some (Value.dict (assocSet c "email" (Value.str rec.email))) ∧
    assocGet (assocSet c "email" (Value.str rec.email)) "email"
      = some (Value.str rec.email) ∧
    (∀ k, k ≠ "email" →
      assocGet (assocSet c "email" (Value.str rec.email)) k = assocGet c k) ∧
    assocGet (enrichedFields f c dl rec du) "data"
      = some (Value.dict (assocSet (assocSet dl "email" (Value.str du.email))
          "username" (Value.str du.username))) ∧
    assocGet (assocSet (assocSet dl "email" (Value.str du.email))
        "username" (Value.str du.username)) "email" = some (Value.str du.email) ∧
    assocGet (assocSet (assocSet dl "email" (Value.str du.email))
        "username" (Value.str du.username)) "username" = some (Value.str du.username) ∧
    (∀ k, k ≠ "email" → k ≠ "username" →
      assocGet (assocSet (assocSet dl "email" (Value.str du.email))
        "username" (Value.str du.username)) k = assocGet dl k) ∧
    (∀ k, k ≠ "context" → k ≠ "data" →
      assocGet (enrichedFields f c dl rec du) k = assocGet f k) := by
  obtain ⟨lks1, ht1⟩ := send_wellformed_invoke store tex f c dl nm u rec du
    h1 h2 h3 h5 h6 h7 hd hdne hcase
  obtain ⟨hg1, hg2, hg3⟩ := enrichedFields_gets f c dl rec du
  refine ⟨?_, ?_, hg1, assocGet_assocSet_self c "email" _, ?_, hg2, ?_, ?_, ?_, hg3⟩
  · rw [ht1]
    cases tex <;> rfl
  · rw [ht1]
    cases tex <;> rfl
  · intro k hk
    exact assocGet_assocSet_ne c _ (Ne.symm hk)
  · rw [assocGet_assocSet_ne _ _ (by decide : "username" ≠ "email")]
    exact assocGet_assocSet_self dl "email" _
  · exact assocGet_assocSet_self _ "username" _
  · intro k hk1 hk2
    rw [assocGet_assocSet_ne _ _ (Ne.symm hk2), assocGet_assocSet_ne _ _ (Ne.symm hk1)]

/-- Event fields whose data carries no user id: the data user defaults
to the context user. -/
def fieldsW9 : List (String × Value) :=
  [("name", Value.str "edx.course.enrollment.activated"),
   ("context", Value.dict [("user_id", Value.int 10)]),
   ("data", Value.dict [("course_id", Value.str "course-v1:edX+DemoX+Demo")])]

/-- C9 witness: the frame property evaluated on a concrete same-user
event. -/
theorem C9_witness :
    (send storeTwo Option.none (Value.dict fieldsW9)).finalEvent
      = Value.dict (enrichedFields fieldsW9
          [("user_id", Value.int 10)]
          [("course_id", Value.str "course-v1:edX+DemoX+Demo")]
          ⟨"a@x.com", "user10"⟩ ⟨"a@x.com", "user10"⟩) ∧
    assocGet (enrichedFields fieldsW9
        [("user_id", Value.int 10)]
        [("course_id", Value.str "course-v1:edX+DemoX+Demo")]
        ⟨"a@x.com", "user10"⟩ ⟨"a@x.com", "user10"⟩) "data"
      = some (Value.dict (assocSet (assocSet
          [("course_id", Value.str "course-v1:edX+DemoX+Demo")]
          "email" (Value.str "a@x.com")) "username" (Value.str "user10"))) ∧
    (∀ k, k ≠ "context" → k ≠ "data" →
      assocGet (enrichedFields fieldsW9
          [("user_id", Value.int 10)]
          [("course_id", Value.str "course-v1:edX+DemoX+Demo")]
          ⟨"a@x.com", "user10"⟩ ⟨"a@x.com", "user10"⟩) k = assocGet fieldsW9 k) := by
  have h := C9_frame_mutation storeTwo Option.none fieldsW9
    [("user_id", Value.int 10)]
    [("course_id", Value.str "course-v1:edX+DemoX+Demo")]
    (Value.str "edx.course.enrollment.activated") (Value.int 10)
    ⟨"a@x.com", "user10"⟩ ⟨"a@x.com", "user10"⟩
    rfl rfl rfl rfl rfl rfl rfl (by simp) (Or.inl ⟨rfl, rfl⟩)
  exact ⟨h.1, h.2.2.2.2.2.1, h.2.2.2.2.2.2.2.2.2⟩

/-- Rendering of a UTC-stamped datetime always carries the explicit
+00:00 suffix. -/
theorem isoDT_utc_suffix (dd : PyDatetime) (h : dd.tzOffsetMin = some 0) :
    ∃ core, isoDT dd = core ++ "+00:00" := by
  obtain ⟨pd, hh, mm, ss, us, tz⟩ := dd
  have h' : tz = some 0 := h
  subst h'
  refine ⟨isoDate pd ++ "T" ++ padNat 2 hh ++ ":" ++ padNat 2 mm ++ ":" ++
    padNat 2 ss ++ (if us = 0 then "" else "." ++ padNat 6 us), ?_⟩
  rfl

/-- C5: the encoder renders every naive datetime as the ISO-8601
string of its own wall-clock fields stamped +00:00 (UTC.localize: the
value is interpreted as UTC, leaving no offset ambiguity), and every
timezone-aware datetime in a non-UTC zone is converted to UTC before
rendering: the rendered datetime carries offset zero, denotes the same
instant as the input, keeps seconds and microseconds, and is rendered
with the +00:00 suffix. -/
theorem C5_datetime_utc (d : PyDatetime) (hv : ValidDT d) :
    (d.tzOffsetMin = Option.none →
      encoderDefault (Value.dt d) = some (isoDT { d with tzOffsetMin := some 0 }) ∧
      instantMin { d with tzOffsetMin := some 0 }
        = toOrdinal d.pdate * 1440 + d.hour * 60 + d.minute ∧
      (∃ core, isoDT { d with tzOffsetMin := some 0 } = core ++ "+00:00")) ∧
    (∀ off, d.tzOffsetMin = some off → off ≠ 0 →
      encoderDefault (Value.dt d) = some (isoDT (astimezoneUTC d off)) ∧
      (astimezoneUTC d off).tzOffsetMin = some 0 ∧
      instantMin (astimezoneUTC d off) = instantMin d ∧
      (astimezoneUTC d off).second = d.second ∧
      (astimezoneUTC d off).microsecond = d.microsecond ∧
      (∃ core, isoDT (astimezoneUTC d off) = core ++ "+00:00")) := by
  refine ⟨?_, ?_⟩
  · intro htz
    refine ⟨?_, ?_, ?_⟩
    · simp only [encoderDefault, htz]
    · obtain ⟨pd, hh, mm, ss, us, tz⟩ := d
      have htz' : tz = Option.none := htz
      subst htz'
      simp [instantMin]
    · exact isoDT_utc_suffix _ rfl
  · intro off htz hne
    obtain ⟨hz, hi, hs, hus⟩ := astimezoneUTC_spec d off hv htz
    refine ⟨?_, hz, hi, hs, hus, isoDT_utc_suffix _ hz⟩
    simp only [encoderDefault, htz]

/-- C5 witness: an aware datetime half past midnight at offset +01:00
on 2020-03-01, whose UTC conversion crosses back over a leap day. -/
theorem C5_witness :
    ValidDT ⟨⟨2020, 3, 1⟩, 0, 30, 0, 123456, some 60⟩ ∧
    (encoderDefault (Value.dt ⟨⟨2020, 3, 1⟩, 0, 30, 0, 123456, some 60⟩)
        = some (isoDT (astimezoneUTC ⟨⟨2020, 3, 1⟩, 0, 30, 0, 123456, some 60⟩ 60)) ∧
      (astimezoneUTC ⟨⟨2020, 3, 1⟩, 0, 30, 0, 123456, some 60⟩ 60).tzOffsetMin = some 0 ∧
      instantMin (astimezoneUTC ⟨⟨2020, 3, 1⟩, 0, 30, 0, 123456, some 60⟩ 60)
        = instantMin ⟨⟨2020, 3, 1⟩, 0, 30, 0, 123456, some 60⟩ ∧
      (astimezoneUTC ⟨⟨2020, 3, 1⟩, 0, 30, 0, 123456, some 60⟩ 60).second = 0 ∧
      (astimezoneUTC ⟨⟨2020, 3, 1⟩, 0, 30, 0, 123456, some 60⟩ 60).microsecond = 123456 ∧
      (∃ core, isoDT (astimezoneUTC ⟨⟨2020, 3, 1⟩, 0, 30, 0, 123456, some 60⟩ 60)
        = core ++ "+00:00")) := by
  have hvd : ValidDate ⟨2020, 3, 1⟩ := by
    refine ⟨?_, ?_, ?_, ?_⟩ <;> decide
  have hv : ValidDT ⟨⟨2020, 3, 1⟩, 0, 30, 0, 123456, some 60⟩ := by
    refine ⟨hvd, by decide, by decide, by decide, by decide, ?_⟩
    intro off h
    injection h with h2
    subst h2
    exact ⟨by decide, by decide⟩
  exact ⟨hv, (C5_datetime_utc _ hv).2 60 rfl (by decide)⟩
